import Mathlib

/-!
Shallow embedding of the child-demo repository core: the remote job client
in `src/js/api.js` (class `ImageGenerator`) and the persistence layer in
`src/js/storage.js` (class `StorageManager`).

Conventions of the embedding:
* JavaScript strings are `String`, numbers used as times/counters are `Nat`.
* A JavaScript value that may be `undefined`/`null` is an `Option`.
* A JavaScript function that may throw is modelled as returning
  `Except String _` (carrying the thrown error message), or its outcome is
  supplied as an input when the failure source is external (network).
* The spec renames the state strings of the code: code `waiting` is spec
  `queued`, code `success` is spec `succeeded`, code `fail` is spec `failed`.
  The inductive `JobState` keeps the code names.
-/

namespace ChildDemo

/-- Job lifecycle states as used by the code (`api.js`, `getStatusMessage`
and the terminal checks in `pollTaskUntilComplete`). `other` covers any
further state string the server might report. -/
inductive JobState where
  | waiting
  | running
  | processing
  | success
  | fail
  | other (s : String)
deriving DecidableEq

/-- Outcome of evaluating `JSON.parse(result.data.resultJson)` followed by the
access `imageData.resultUrls` in `generateImage` (`api.js` line 197):
`malformed` means that chain throws (bad JSON or missing `resultUrls` field),
carrying the runtime error message; `urls` is the parsed list. -/
inductive ResultJson where
  | malformed (emsg : String)
  | urls (l : List String)
deriving DecidableEq

/-- The `data` object of one status response from the status endpoint
(`queryTaskStatus` result), as consumed by `pollTaskUntilComplete`. -/
structure Snapshot where
  state : JobState
  resultJson : ResultJson
  failMsg : Option String
  createTime : Option Nat
  costTime : Option Nat
deriving DecidableEq

instance {ε α : Type} [DecidableEq ε] [DecidableEq α] : DecidableEq (Except ε α) := fun a b =>
  match a, b with
  | .error x, .error y =>
    if h : x = y then .isTrue (by subst h; rfl) else .isFalse (by simpa using h)
  | .ok x, .ok y =>
    if h : x = y then .isTrue (by subst h; rfl) else .isFalse (by simpa using h)
  | .error _, .ok _ => .isFalse (fun h => by cases h)
  | .ok _, .error _ => .isFalse (fun h => by cases h)

/-- One poll iteration as seen by the loop body of `pollTaskUntilComplete`:
the outcome of the `queryTaskStatus` call (a snapshot, or a thrown error
message), and the value of `Date.now() - startTime` at the timeout check of
that iteration. -/
structure PollObs where
  response : Except String Snapshot
  elapsed : Nat
deriving DecidableEq

/-- Result of the polling loop: the returned snapshot, a thrown error
message, or `outOfObs` when the supplied observation list ends before the
loop does (the loop would keep polling). -/
inductive PollOutcome where
  | ok (snap : Snapshot)
  | err (msg : String)
  | outOfObs
deriving DecidableEq

/-- Observable trace of one `pollTaskUntilComplete` run: its outcome, the
snapshots passed to `onUpdate` in order, and the number of
`queryTaskStatus` calls issued. -/
structure PollTrace where
  outcome : PollOutcome
  callbacks : List Snapshot
  polls : Nat
deriving DecidableEq

/-- Embedding of the JavaScript expression `s || d` for an optional string:
`undefined` and the empty string are falsy. Used for
`result.data.failMsg || 'Unknown error'`. -/
def jsStringOr (s : Option String) (d : String) : String :=
  match s with
  | some m => if m = "" then d else m
  | none => d

/-- The constant `this.maxPollingTime` of `ImageGenerator` (300000 ms). -/
def maxPollingTime : Nat := 300000

/-- The constant `this.pollingInterval` of `ImageGenerator` (2000 ms). -/
def pollingInterval : Nat := 2000

/-- Embedding of the loop of `pollTaskUntilComplete` (`api.js` lines
116-154). `onUpdate` records whether a callback was supplied; `last` is the
`lastStatus` variable (initially `null`). Each iteration: query (a thrown
query error propagates), fire `onUpdate` when the state differs from
`lastStatus` and update `lastStatus`, return on state `success`, throw
`Task failed: ...` on state `fail`, throw `Task polling timeout` when the
elapsed wall clock exceeds `maxT`, otherwise wait and continue. -/
def pollLoop (maxT : Nat) (onUpdate : Bool) :
    List PollObs → Option JobState → PollTrace
  | [], _ => ⟨.outOfObs, [], 0⟩
  | o :: rest, last =>
    match o.response with
    | .error msg => ⟨.err msg, [], 1⟩
    | .ok snap =>
      let fired := onUpdate = true ∧ some snap.state ≠ last
      let cbs : List Snapshot := if fired then [snap] else []
      let last' : Option JobState := if fired then some snap.state else last
      if snap.state = .success then
        ⟨.ok snap, cbs, 1⟩
      else if snap.state = .fail then
        ⟨.err ("Task failed: " ++ jsStringOr snap.failMsg "Unknown error"), cbs, 1⟩
      else if o.elapsed > maxT then
        ⟨.err "Task polling timeout", cbs, 1⟩
      else
        let t := pollLoop maxT onUpdate rest last'
        ⟨t.outcome, cbs ++ t.callbacks, t.polls + 1⟩

/-- Specification-side description of the callback contract: one snapshot
per maximal run of identical consecutive states, relative to a previously
seen state `last`. -/
def dedupRuns : Option JobState → List Snapshot → List Snapshot
  | _, [] => []
  | last, s :: t =>
    if some s.state = last then dedupRuns last t
    else s :: dedupRuns (some s.state) t

/-- The snapshots the loop actually processes from an observation list: the
prefix up to and including the first stopping observation (terminal state or
timeout); a query error stops the loop without contributing a snapshot. -/
def processedSnaps (maxT : Nat) : List PollObs → List Snapshot
  | [] => []
  | o :: rest =>
    match o.response with
    | .error _ => []
    | .ok snap =>
      if snap.state = .success ∨ snap.state = .fail ∨ o.elapsed > maxT then [snap]
      else snap :: processedSnaps maxT rest

/-- Metadata stored in `this.activeTasks` for one in-flight job
(`api.js` lines 175-178). -/
structure TaskMeta where
  startTime : Nat
  prompt : String
deriving DecidableEq

/-- Embedding of `Map.prototype.set` on the active-task map: replace the
entry with the given key, or append a new entry. -/
def taskSet : List (String × TaskMeta) → String → TaskMeta → List (String × TaskMeta)
  | [], k, v => [(k, v)]
  | (k', v') :: t, k, v =>
    if k' = k then (k', v) :: t else (k', v') :: taskSet t k v

/-- Embedding of `Map.prototype.delete` on the active-task map. -/
def taskDelete (m : List (String × TaskMeta)) (k : String) : List (String × TaskMeta) :=
  m.filter (fun p => p.1 ≠ k)

/-- Return value of `generateImage`: the tagged success object, the tagged
failure object, or `divergent` when the modelled observation list ends
before the polling loop does (the call has not returned yet). -/
inductive GenResult where
  | ok (taskId : String) (imageUrl : Option String) (generationTime : Option Nat) (timestamp : Nat)
  | err (error : String) (taskId : Option String)
  | divergent (taskId : String)
deriving DecidableEq

/-- Embedding of `generateImage` (`api.js` lines 164-221). Inputs: the
outcome of `createTask` (task id, or thrown message), the poll observations,
the prompt, `Date.now()` at task registration and at the final return, and
the active-task map. Mirrors the `try`/`catch`/`finally` structure: on any
thrown error the tagged failure object is returned; the `finally` block
deletes the task id from the map whenever `taskId` is non-null and the call
returns. -/
def generateImage (create : Except String String) (obs : List PollObs)
    (prompt : String) (startTime finalNow : Nat)
    (tasks : List (String × TaskMeta)) : GenResult × List (String × TaskMeta) :=
  match create with
  | .error msg => (.err msg none, tasks)
  | .ok taskId =>
    let tasks1 := taskSet tasks taskId ⟨startTime, prompt⟩
    let trace := pollLoop maxPollingTime true obs none
    match trace.outcome with
    | .err msg => (.err msg (some taskId), taskDelete tasks1 taskId)
    | .outOfObs => (.divergent taskId, tasks1)
    | .ok snap =>
      match snap.resultJson with
      | .malformed emsg => (.err emsg (some taskId), taskDelete tasks1 taskId)
      | .urls l => (.ok taskId l.head? snap.costTime finalNow, taskDelete tasks1 taskId)

/-! Persistence layer (`src/js/storage.js`, class `StorageManager`). The
browser substrate is modelled as available and reliable: `setItem` succeeds
and returns `true`. Each logical record of `localStorage` is a typed slot of
`Store`; `none` means the key is absent. -/

/-- The `this.defaultPreferences` object of `StorageManager`. -/
structure Preferences where
  language : String
  autoSave : Bool
  maxHistory : Nat
  theme : String
  soundEnabled : Bool
  autoDownload : Bool
deriving DecidableEq

/-- The constructor value of `this.defaultPreferences`. -/
def defaultPreferences : Preferences :=
  { language := "zh-CN", autoSave := true, maxHistory := 50,
    theme := "auto", soundEnabled := true, autoDownload := false }

/-- A preferences argument with only some keys present, as a JavaScript
caller may pass to `savePreferences`; `none` means the key is absent from
the object. -/
structure PrefsOverlay where
  language : Option String := none
  autoSave : Option Bool := none
  maxHistory : Option Nat := none
  theme : Option String := none
  soundEnabled : Option Bool := none
  autoDownload : Option Bool := none
deriving DecidableEq

/-- View of a full preferences object as an argument object with every key
present (how `importData` hands an imported preferences object on). -/
def Preferences.toOverlay (p : Preferences) : PrefsOverlay :=
  { language := some p.language, autoSave := some p.autoSave,
    maxHistory := some p.maxHistory, theme := some p.theme,
    soundEnabled := some p.soundEnabled, autoDownload := some p.autoDownload }

/-- Embedding of the spread `{...this.defaultPreferences, ...preferences}`
in `savePreferences`: keys present in the argument win, absent keys take the
default value. -/
def mergeOverDefaults (p : PrefsOverlay) : Preferences :=
  { language := p.language.getD defaultPreferences.language,
    autoSave := p.autoSave.getD defaultPreferences.autoSave,
    maxHistory := p.maxHistory.getD defaultPreferences.maxHistory,
    theme := p.theme.getD defaultPreferences.theme,
    soundEnabled := p.soundEnabled.getD defaultPreferences.soundEnabled,
    autoDownload := p.autoDownload.getD defaultPreferences.autoDownload }

/-- A stored history record: the fresh fields `id` and `timestamp` assigned
in `addToHistory`, plus the remaining item fields collapsed into an opaque
`payload`. -/
structure HistoryEntry where
  id : String
  timestamp : Nat
  payload : String
deriving DecidableEq

/-- An argument object for `addToHistory`. The JavaScript spread
`{id: ..., timestamp: ..., ...item}` lets `id`/`timestamp` keys of the item
override the freshly assigned ones, so the model records whether the item
carries them. -/
structure HistoryItem where
  id : Option String := none
  timestamp : Option Nat := none
  payload : String
deriving DecidableEq

/-- One entry of the image cache object: base64 payload plus write time
(`cacheImage`). -/
structure CacheEntry where
  data : String
  timestamp : Nat
deriving DecidableEq

/-- Embedding of property assignment `cache[url] = entry` on the cache
object: replace in place, or append a new key (JavaScript objects preserve
insertion order). -/
def setEntry : List (String × CacheEntry) → String → CacheEntry → List (String × CacheEntry)
  | [], u, e => [(u, e)]
  | (k, v) :: t, u, e =>
    if k = u then (k, e) :: t else (k, v) :: setEntry t u e

/-- The four logical records of `localStorage` used by `StorageManager`
(`this.storageKeys`); `none` models an absent key, so reads fall back to the
defaults of `getItem`. -/
structure Store where
  history : Option (List HistoryEntry) := none
  preferences : Option Preferences := none
  apiKey : Option String := none
  cache : Option (List (String × CacheEntry)) := none
deriving DecidableEq

/-- A store with no key present. -/
def emptyStore : Store := {}

/-- Configuration fixed in the `StorageManager` constructor. The byte
ceiling of the image cache is a constructor field (`this.maxCacheSize`),
50 MB by default. -/
structure StorageConfig where
  maxCacheSize : Nat := 50 * 1024 * 1024
deriving DecidableEq

/-- Embedding of `getHistory`: the stored list, or `[]` when absent. -/
def getHistory (st : Store) : List HistoryEntry :=
  st.history.getD []

/-- Embedding of `getPreferences`: the stored object, or the defaults when
absent. -/
def getPreferences (st : Store) : Preferences :=
  st.preferences.getD defaultPreferences

/-- The maximum history length used by `saveHistory`:
`preferences.maxHistory || this.defaultPreferences.maxHistory`, where the
JavaScript `||` sends the falsy value `0` to the default. -/
def effMaxHistory (p : Preferences) : Nat :=
  if p.maxHistory = 0 then defaultPreferences.maxHistory else p.maxHistory

/-- Embedding of `history.slice(-n)` for `n > 0`: the last `n` elements
(the whole list when it is shorter). -/
def sliceLast (l : List HistoryEntry) (n : Nat) : List HistoryEntry :=
  l.drop (l.length - n)

/-- Embedding of `saveHistory` (`storage.js` lines 174-187): truncate to the
configured maximum, keeping the newest entries, and persist. -/
def saveHistory (st : Store) (history : List HistoryEntry) : Bool × Store :=
  let preferences := getPreferences st
  let maxHistory := effMaxHistory preferences
  (true, { st with history := some (sliceLast history maxHistory) })

/-- Embedding of `addToHistory` (`storage.js` lines 202-224). `freshId` is
the value of `Utils.generateUUID()` and `now` the value of `Date.now()` for
this call; the spread semantics let `id`/`timestamp` fields of the item
override them. The history is saved only when the stored auto-save
preference is set. -/
def addToHistory (st : Store) (item : HistoryItem) (freshId : String) (now : Nat) :
    Bool × Store :=
  let history := getHistory st
  let newItem : HistoryEntry :=
    { id := item.id.getD freshId, timestamp := item.timestamp.getD now,
      payload := item.payload }
  let history2 := history ++ [newItem]
  let preferences := getPreferences st
  if preferences.autoSave then saveHistory st history2 else (true, st)

/-- Embedding of `savePreferences` (`storage.js` lines 256-263): the
argument is merged over the defaults (not over the stored object) and the
merge is persisted. -/
def savePreferences (st : Store) (p : PrefsOverlay) : Bool × Store :=
  (true, { st with preferences := some (mergeOverDefaults p) })

/-- The image-cache age bound of `cleanImageCache`: 7 days in ms. -/
def purgeMaxAge : Nat := 7 * 24 * 60 * 60 * 1000

/-- JSON text of one cache entry inside `JSON.stringify(cache)`, for
payloads and keys without characters that need escaping. -/
def encodeEntry (u : String) (e : CacheEntry) : String :=
  "\"" ++ u ++ "\":\x7b\"data\":\"" ++ e.data ++ "\",\"timestamp\":"
    ++ toString e.timestamp ++ "\x7d"

/-- JSON text of the whole cache object, as produced by
`JSON.stringify(cache)` in `getCacheSize`. -/
def encodeCache (c : List (String × CacheEntry)) : String :=
  "\x7b" ++ String.intercalate "," (c.map fun p => encodeEntry p.1 p.2) ++ "\x7d"

/-- Embedding of `getCacheSize`: the byte length of the serialized cache
(`new Blob([cacheString]).size` is the UTF-8 byte count). -/
def getCacheSize (st : Store) : Nat :=
  (encodeCache (st.cache.getD [])).utf8ByteSize

/-- Embedding of `cleanImageCache` (`storage.js` lines 382-394): delete
every entry older than 7 days and persist the result. -/
def cleanImageCache (st : Store) (now : Nat) : Store :=
  let cache := st.cache.getD []
  { st with cache := some (cache.filter fun p => ¬ now - p.2.timestamp > purgeMaxAge) }

/-- The store state after the size check of `cacheImage` and before its
final write: when the serialized size exceeds the ceiling the purge has run
and been persisted, otherwise the store is untouched. -/
def cacheImageMid (cfg : StorageConfig) (st : Store) (now : Nat) : Store :=
  if getCacheSize st > cfg.maxCacheSize then cleanImageCache st now else st

/-- Embedding of `cacheImage` (`storage.js` lines 331-345). The local
variable `cache` is read before the purge, so the final write stores the
pre-purge snapshot plus the new entry, over whatever the purge wrote. -/
def cacheImage (cfg : StorageConfig) (st : Store) (url data : String) (now : Nat) :
    Bool × Store :=
  let cache := st.cache.getD []
  let st1 := cacheImageMid cfg st now
  (true, { st1 with cache := some (setEntry cache url ⟨data, now⟩) })

/-- The exported document of `exportAllData` (`storage.js` lines 407-415).
It has no credential field. -/
structure ExportDoc where
  version : String
  exportDate : String
  history : List HistoryEntry
  preferences : Preferences
deriving DecidableEq

/-- Embedding of `exportAllData`; `nowIso` is the value of
`new Date().toISOString()`. -/
def exportAllData (st : Store) (nowIso : String) : ExportDoc :=
  { version := "1.0", exportDate := nowIso,
    history := getHistory st, preferences := getPreferences st }

/-- An argument object for `importData`: the `history` and `preferences`
fields may each be absent. -/
structure ImportDoc where
  history : Option (List HistoryEntry) := none
  preferences : Option PrefsOverlay := none
deriving DecidableEq

/-- View of an exported document as an argument for `importData`. -/
def ExportDoc.toImportDoc (d : ExportDoc) : ImportDoc :=
  { history := some d.history, preferences := some d.preferences.toOverlay }

/-- Result object of `importData`. -/
structure ImportResult where
  success : Bool
  importedHistory : Nat
  importedPreferences : Bool
  errors : List String
deriving DecidableEq

/-- Embedding of the duplicate filter of `importData`:
`combined.filter((item, index, arr) => arr.findIndex(i => i.id === item.id) === index)`
keeps the first occurrence of each id. `seen` carries the ids of elements
already kept. -/
def dedupById (seen : List String) : List HistoryEntry → List HistoryEntry
  | [] => []
  | x :: t =>
    if x.id ∈ seen then dedupById seen t
    else x :: dedupById (x.id :: seen) t

/-- Embedding of `importData` (`storage.js` lines 422-471): merge imported
history into the existing history de-duplicating by id, save it under the
current maximum, then merge imported preferences over the defaults and save
them; `success` holds when no error was recorded (the modelled substrate
never fails a write). -/
def importData (st : Store) (d : ImportDoc) : ImportResult × Store :=
  let st1 :=
    match d.history with
    | none => st
    | some hl => (saveHistory st (dedupById [] (getHistory st ++ hl))).2
  let histCount :=
    match d.history with
    | none => 0
    | some hl => hl.length
  let st2 :=
    match d.preferences with
    | none => st1
    | some p => (savePreferences st1 p).2
  let prefOk :=
    match d.preferences with
    | none => false
    | some _ => true
  ({ success := true, importedHistory := histCount,
     importedPreferences := prefOk, errors := [] }, st2)

/-! Concrete fixtures used by witnesses and counterexamples. -/

/-- A status snapshot with the given state and a well-formed result payload. -/
def exampleSnap (s : JobState) : Snapshot :=
  ⟨s, .urls ["https://x/y.png"], none, none, none⟩

/-- The observed state sequence of the spec example:
queued, queued, running, running, processing, succeeded (code names). -/
def exampleObs : List PollObs :=
  ([.waiting, .waiting, .running, .running, .processing, .success] : List JobState).map
    fun s => ⟨.ok (exampleSnap s), 0⟩

/-- A successful snapshot with a result URL and a cost time. -/
def successSnap : Snapshot :=
  ⟨.success, .urls ["https://x/y.png"], none, none, some 5⟩

/-- A non-terminal snapshot. -/
def waitingSnap : Snapshot :=
  ⟨.waiting, .malformed "no result yet", none, none, none⟩

/-- A failed snapshot with a server failure message. -/
def failSnap : Snapshot :=
  ⟨.fail, .malformed "no result", some "boom", none, none⟩

/-- A cache configuration with a small byte ceiling. -/
def cfgSmall : StorageConfig := { maxCacheSize := 10 }

/-- A store whose cache holds one entry written at time 0. -/
def stOldCache : Store := { cache := some [("u", ⟨"olddata", 0⟩)] }

/-- A clock value 8 days after time 0, past the 7-day purge age. -/
def now8d : Nat := 8 * 24 * 60 * 60 * 1000

/-- A store with a stored non-default theme preference. -/
def stDark : Store :=
  { preferences := some { defaultPreferences with theme := "dark" } }

/-- A preferences argument specifying only the sound flag. -/
def ovSound : PrefsOverlay := { soundEnabled := some false }

/-- A history of 51 entries with pairwise distinct ids. -/
def bigHistory : List HistoryEntry :=
  (List.range 51).map fun i => ⟨toString i, 0, ""⟩

/-- A store holding 51 history entries under a stored maximum of 100. -/
def st51 : Store :=
  { history := some bigHistory,
    preferences := some { defaultPreferences with maxHistory := 100 } }

/-- A store at its configured maximum of 2 history entries. -/
def stTwo : Store :=
  { history := some [⟨"a", 1, "x"⟩, ⟨"b", 2, "y"⟩],
    preferences := some { defaultPreferences with maxHistory := 2 } }

/-- A store with history and a non-default preference, for the round trip. -/
def stRound : Store :=
  { history := some [⟨"a", 1, "x"⟩, ⟨"b", 2, "y"⟩],
    preferences := some { defaultPreferences with theme := "dark" } }

/-- A store whose stored preferences disable auto-save. -/
def stNoSave : Store :=
  { preferences := some { defaultPreferences with autoSave := false } }

/-! Helper lemmas about the polling loop. -/

/-- The outcome and the number of issued status queries do not depend on the
callback flag or on the running `lastStatus` value; those only shape the
callback trace. -/
lemma pollLoop_outcome_polls_congr (maxT : Nat) (cb cb' : Bool) :
    ∀ (obs : List PollObs) (last last' : Option JobState),
      (pollLoop maxT cb obs last).outcome = (pollLoop maxT cb' obs last').outcome ∧
      (pollLoop maxT cb obs last).polls = (pollLoop maxT cb' obs last').polls
  | [], _, _ => ⟨rfl, rfl⟩
  | o :: rest, last, last' => by
    rcases ho : o.response with msg | snap
    · simp [pollLoop, ho]
    · by_cases hs : snap.state = .success
      · simp [pollLoop, ho, hs]
      · by_cases hf : snap.state = .fail
        · simp [pollLoop, ho, hs, hf]
        · by_cases ht : o.elapsed > maxT
          · simp [pollLoop, ho, hs, hf, ht]
          · have ih := pollLoop_outcome_polls_congr maxT cb cb' rest
              (if cb = true ∧ some snap.state ≠ last then some snap.state else last)
              (if cb' = true ∧ some snap.state ≠ last' then some snap.state else last')
            simp only [pollLoop, ho, if_neg hs, if_neg hf, if_neg ht]
            exact ⟨ih.1, by rw [ih.2]⟩

/-- Stepping the loop over a prefix of successful, non-terminal,
non-timed-out observations: the outcome is that of the rest of the loop, and
each prefix observation costs exactly one status query. -/
lemma pollLoop_skip (maxT : Nat) (cb : Bool) :
    ∀ (pre l : List PollObs) (last : Option JobState),
      (∀ p ∈ pre, ∃ s, p.response = .ok s ∧ s.state ≠ .success ∧ s.state ≠ .fail ∧
        ¬ p.elapsed > maxT) →
      (pollLoop maxT cb (pre ++ l) last).outcome = (pollLoop maxT cb l none).outcome ∧
      (pollLoop maxT cb (pre ++ l) last).polls =
        pre.length + (pollLoop maxT cb l none).polls
  | [], l, last, _ => by
    simpa using pollLoop_outcome_polls_congr maxT cb cb l last none
  | o :: pre, l, last, h => by
    obtain ⟨s, hs, hsucc, hfail, htime⟩ := h o (List.mem_cons_self o pre)
    have ih := pollLoop_skip maxT cb pre l
      (if cb = true ∧ some s.state ≠ last then some s.state else last)
      (fun p hp => h p (List.mem_cons_of_mem o hp))
    simp only [List.cons_append, pollLoop, hs]
    simp only [if_neg hsucc, if_neg hfail, if_neg htime]
    refine ⟨ih.1, ?_⟩
    have h2 := ih.2
    simp only [List.append_eq] at h2 ⊢
    simp only [List.length_cons]
    omega

/-- C2: for every sequence of status responses, `pollTaskUntilComplete`
returns the snapshot at the first observation whose state is `success`
(spec: `succeeded`), and fails with the job-failure error at the first
observation whose state is `fail` (spec: `failed`), with the message taken
from the failure message of the server or the fixed fallback
`Unknown error` when that message is absent or empty. The earlier
observations are successful queries with non-terminal states that do not
trip the timeout check. -/
theorem pollTaskUntilComplete_first_terminal (pre : List PollObs) (o : PollObs)
    (rest : List PollObs) (snap : Snapshot) (cb : Bool) (last : Option JobState)
    (hpre : ∀ p ∈ pre, ∃ s, p.response = .ok s ∧ s.state ≠ .success ∧
      s.state ≠ .fail ∧ ¬ p.elapsed > maxPollingTime)
    (ho : o.response = .ok snap) :
    (snap.state = .success →
      (pollLoop maxPollingTime cb (pre ++ o :: rest) last).outcome = .ok snap) ∧
    (snap.state = .fail →
      (pollLoop maxPollingTime cb (pre ++ o :: rest) last).outcome =
        .err ("Task failed: " ++ jsStringOr snap.failMsg "Unknown error")) := by
  have hskip := pollLoop_skip maxPollingTime cb pre (o :: rest) last hpre
  rw [hskip.1]
  constructor
  · intro hs
    simp [pollLoop, ho, hs]
  · intro hf
    have hs : snap.state ≠ .success := by rw [hf]; intro h; cases h
    simp [pollLoop, ho, if_neg hs, hf]

/-- Witness for C2: after one queued observation, a success observation is
returned and a failure observation raises the job-failure error built from
the server message `boom`. -/
theorem pollTaskUntilComplete_first_terminal_witness :
    (pollLoop maxPollingTime true
      ([⟨.ok waitingSnap, 0⟩] ++ ⟨.ok successSnap, 10⟩ :: []) none).outcome =
      .ok successSnap ∧
    (pollLoop maxPollingTime true
      ([⟨.ok waitingSnap, 0⟩] ++ ⟨.ok failSnap, 10⟩ :: []) none).outcome =
      .err "Task failed: boom" := by
  have hpre : ∀ p ∈ [(⟨.ok waitingSnap, 0⟩ : PollObs)], ∃ s, p.response = .ok s ∧
      s.state ≠ JobState.success ∧ s.state ≠ JobState.fail ∧
      ¬ p.elapsed > maxPollingTime := by
    intro p hp
    simp only [List.mem_singleton] at hp
    subst hp
    exact ⟨waitingSnap, rfl, by decide, by decide, by decide⟩
  refine ⟨(pollTaskUntilComplete_first_terminal [⟨.ok waitingSnap, 0⟩] ⟨.ok successSnap, 10⟩
    [] successSnap true none hpre rfl).1 rfl, ?_⟩
  have h := (pollTaskUntilComplete_first_terminal [⟨.ok waitingSnap, 0⟩] ⟨.ok failSnap, 10⟩
    [] failSnap true none hpre rfl).2 rfl
  simpa using h

/-- C4: when every earlier observation is a successful query with a
non-terminal state within the time ceiling, and the next observation is
non-terminal with elapsed wall-clock time above `maxPollingTime` (300000
ms), the loop fails with the poll-timeout error at that observation — the
timeout is checked after the poll — and issues no further status queries:
exactly the prefix observations plus this one are queried, whatever comes
after. -/
theorem pollTaskUntilComplete_timeout (pre : List PollObs) (o : PollObs)
    (rest : List PollObs) (snap : Snapshot) (cb : Bool) (last : Option JobState)
    (hpre : ∀ p ∈ pre, ∃ s, p.response = .ok s ∧ s.state ≠ .success ∧
      s.state ≠ .fail ∧ ¬ p.elapsed > maxPollingTime)
    (ho : o.response = .ok snap)
    (hsucc : snap.state ≠ .success) (hfail : snap.state ≠ .fail)
    (htime : o.elapsed > maxPollingTime) :
    (pollLoop maxPollingTime cb (pre ++ o :: rest) last).outcome =
      .err "Task polling timeout" ∧
    (pollLoop maxPollingTime cb (pre ++ o :: rest) last).polls = pre.length + 1 := by
  have hskip := pollLoop_skip maxPollingTime cb pre (o :: rest) last hpre
  rw [hskip.1, hskip.2]
  constructor
  · simp [pollLoop, ho, if_neg hsucc, if_neg hfail, htime]
  · simp [pollLoop, ho, if_neg hsucc, if_neg hfail, htime]

/-- Witness for C4: one queued observation within the ceiling followed by a
queued observation past the ceiling yields the timeout error after exactly
two queries, even though more observations are available. -/
theorem pollTaskUntilComplete_timeout_witness :
    (pollLoop maxPollingTime true
      ([⟨.ok waitingSnap, 0⟩] ++ ⟨.ok waitingSnap, 300001⟩ ::
        [⟨.ok successSnap, 300002⟩]) none).outcome = .err "Task polling timeout" ∧
    (pollLoop maxPollingTime true
      ([⟨.ok waitingSnap, 0⟩] ++ ⟨.ok waitingSnap, 300001⟩ ::
        [⟨.ok successSnap, 300002⟩]) none).polls = 1 + 1 := by
  have hpre : ∀ p ∈ [(⟨.ok waitingSnap, 0⟩ : PollObs)], ∃ s, p.response = .ok s ∧
      s.state ≠ JobState.success ∧ s.state ≠ JobState.fail ∧
      ¬ p.elapsed > maxPollingTime := by
    intro p hp
    simp only [List.mem_singleton] at hp
    subst hp
    exact ⟨waitingSnap, rfl, by decide, by decide, by decide⟩
  have h := pollTaskUntilComplete_timeout [⟨.ok waitingSnap, 0⟩]
    ⟨.ok waitingSnap, 300001⟩ [⟨.ok successSnap, 300002⟩] waitingSnap true none hpre rfl
    (by decide) (by decide) (by decide)
  simpa using h

/-- The callback trace of the loop, relative to any previously seen state,
is the run de-duplication of the snapshots the loop processes. -/
lemma pollLoop_callbacks_dedup (maxT : Nat) :
    ∀ (obs : List PollObs) (last : Option JobState),
      (pollLoop maxT true obs last).callbacks =
        dedupRuns last (processedSnaps maxT obs)
  | [], _ => rfl
  | o :: rest, last => by
    rcases ho : o.response with msg | snap
    · simp [pollLoop, processedSnaps, dedupRuns, ho]
    · have ih := pollLoop_callbacks_dedup maxT rest
      by_cases hdup : some snap.state = last
      · have hfired : ¬ (true = true ∧ some snap.state ≠ last) := by
          simp [hdup]
        by_cases hstop : snap.state = .success ∨ snap.state = .fail ∨ o.elapsed > maxT
        · rcases hstop with hs | hf | ht
          · simp [pollLoop, processedSnaps, dedupRuns, ho, hs, if_neg hfired, hdup]
          · have hs : snap.state ≠ .success := by rw [hf]; intro h; cases h
            simp [pollLoop, processedSnaps, dedupRuns, ho, hf, if_neg hs,
              if_neg hfired, hdup]
          · by_cases hs : snap.state = .success
            · simp [pollLoop, processedSnaps, dedupRuns, ho, hs, if_neg hfired, hdup]
            · by_cases hf : snap.state = .fail
              · simp [pollLoop, processedSnaps, dedupRuns, ho, hf, if_neg hs,
                  if_neg hfired, hdup]
              · simp [pollLoop, processedSnaps, dedupRuns, ho, if_neg hs, if_neg hf,
                  ht, if_neg hfired, hdup]
        · push_neg at hstop
          obtain ⟨hs, hf, ht⟩ := hstop
          have hproc : processedSnaps maxT (o :: rest) =
              snap :: processedSnaps maxT rest := by
            simp [processedSnaps, ho, hs, hf, ht]
          rw [hproc]
          simp only [pollLoop, ho, if_neg hs, if_neg hf, if_neg (Nat.not_lt.mpr ht),
            if_neg hfired]
          simp [dedupRuns, hdup, ih last]
      · have hfired : (true = true ∧ some snap.state ≠ last) := ⟨rfl, hdup⟩
        by_cases hstop : snap.state = .success ∨ snap.state = .fail ∨ o.elapsed > maxT
        · rcases hstop with hs | hf | ht
          · simp [pollLoop, processedSnaps, dedupRuns, ho, hs, if_pos hfired, hdup]
          · have hs : snap.state ≠ .success := by rw [hf]; intro h; cases h
            simp [pollLoop, processedSnaps, dedupRuns, ho, hf, if_neg hs,
              if_pos hfired, hdup]
          · by_cases hs : snap.state = .success
            · simp [pollLoop, processedSnaps, dedupRuns, ho, hs, if_pos hfired, hdup]
            · by_cases hf : snap.state = .fail
              · simp [pollLoop, processedSnaps, dedupRuns, ho, hf, if_neg hs,
                  if_pos hfired, hdup]
              · simp [pollLoop, processedSnaps, dedupRuns, ho, if_neg hs, if_neg hf,
                  ht, if_pos hfired, hdup]
        · push_neg at hstop
          obtain ⟨hs, hf, ht⟩ := hstop
          have hproc : processedSnaps maxT (o :: rest) =
              snap :: processedSnaps maxT rest := by
            simp [processedSnaps, ho, hs, hf, ht]
          rw [hproc]
          simp only [pollLoop, ho, if_neg hs, if_neg hf, if_neg (Nat.not_lt.mpr ht),
            if_pos hfired]
          simp [dedupRuns, hdup, ih (some snap.state)]

/-- C3: with a supplied update callback, `pollTaskUntilComplete` invokes it
exactly once per maximal run of identical consecutive observed states, in
observation order, over the prefix of observations the loop processes; in
particular on the observed state sequence queued, queued, running, running,
processing, succeeded (code names: waiting, waiting, running, running,
processing, success) it fires exactly four times, once per state, in order. -/
theorem pollTaskUntilComplete_onUpdate_per_run :
    (∀ (maxT : Nat) (obs : List PollObs),
      (pollLoop maxT true obs none).callbacks =
        dedupRuns none (processedSnaps maxT obs)) ∧
    (pollLoop maxPollingTime true exampleObs none).callbacks.map Snapshot.state =
      [.waiting, .running, .processing, .success] ∧
    (pollLoop maxPollingTime true exampleObs none).callbacks.length = 4 := by
  refine ⟨fun maxT obs => pollLoop_callbacks_dedup maxT obs none, ?_, ?_⟩ <;> decide

/-- A deleted key is absent from the active-task map. -/
lemma taskDelete_not_mem (m : List (String × TaskMeta)) (k : String) :
    k ∉ (taskDelete m k).map Prod.fst := by
  intro hmem
  rcases List.mem_map.1 hmem with ⟨p, hp, hpk⟩
  have := (List.mem_filter.1 hp).2
  simp only [decide_eq_true_eq] at this
  exact this hpk

/-- C1: `generateImage` never propagates a failure: it is a total function
into tagged results. When `createTask` throws, the result is the tagged
failure object carrying that message and a null job id; when the polling
chain throws (job failure, timeout, transport or API error), the result is
the tagged failure object carrying the message and the job id; when polling
returns a snapshot, the result parses its payload and is the tagged success
object with the job id, the first result URL, the reported generation time
and the completion timestamp — and a payload that fails to parse again
yields the tagged failure object. -/
theorem generateImage_tagged_results (create : Except String String)
    (obs : List PollObs) (prompt : String) (startTime finalNow : Nat)
    (tasks : List (String × TaskMeta)) :
    (∀ msg, create = .error msg →
      generateImage create obs prompt startTime finalNow tasks = (.err msg none, tasks)) ∧
    (∀ taskId, create = .ok taskId →
      (∀ msg, (pollLoop maxPollingTime true obs none).outcome = .err msg →
        (generateImage create obs prompt startTime finalNow tasks).1 =
          .err msg (some taskId)) ∧
      (∀ snap emsg, (pollLoop maxPollingTime true obs none).outcome = .ok snap →
        snap.resultJson = .malformed emsg →
        (generateImage create obs prompt startTime finalNow tasks).1 =
          .err emsg (some taskId)) ∧
      (∀ snap l, (pollLoop maxPollingTime true obs none).outcome = .ok snap →
        snap.resultJson = .urls l →
        (generateImage create obs prompt startTime finalNow tasks).1 =
          .ok taskId l.head? snap.costTime finalNow)) := by
  refine ⟨fun msg hc => by simp [generateImage, hc], fun taskId hc => ⟨?_, ?_, ?_⟩⟩
  · intro msg hout
    simp [generateImage, hc, hout]
  · intro snap emsg hout hjson
    simp [generateImage, hc, hout, hjson]
  · intro snap l hout hjson
    simp [generateImage, hc, hout, hjson]

/-- Witness for C1: a created job polled to success with one result URL
returns the tagged success object; a failing create returns the tagged
failure object with a null job id. -/
theorem generateImage_tagged_results_witness :
    (generateImage (.ok "t1") [⟨.ok successSnap, 0⟩] "test" 0 9 []).1 =
      .ok "t1" (some "https://x/y.png") (some 5) 9 ∧
    generateImage (.error "boom") [] "test" 0 9 [] = (.err "boom" none, []) := by
  constructor
  · have h := ((generateImage_tagged_results (.ok "t1") [⟨.ok successSnap, 0⟩]
      "test" 0 9 []).2 "t1" rfl).2.2 successSnap ["https://x/y.png"]
      (by decide) rfl
    simpa using h
  · exact (generateImage_tagged_results (.error "boom") [] "test" 0 9 []).1 "boom" rfl

/-- C5: on every returning exit path of `generateImage` the job id is
absent from the active-task map afterwards: when `createTask` fails the map
is returned untouched (no entry was created), and when a job id was
assigned, the map after the call contains no entry for it, whether the call
succeeded or failed. -/
theorem generateImage_tracker_cleanup (create : Except String String)
    (obs : List PollObs) (prompt : String) (startTime finalNow : Nat)
    (tasks : List (String × TaskMeta)) :
    (∀ msg, create = .error msg →
      (generateImage create obs prompt startTime finalNow tasks).2 = tasks) ∧
    (∀ taskId, create = .ok taskId →
      (pollLoop maxPollingTime true obs none).outcome ≠ .outOfObs →
      taskId ∉ ((generateImage create obs prompt startTime finalNow tasks).2.map
        Prod.fst)) := by
  refine ⟨fun msg hc => by simp [generateImage, hc], fun taskId hc hout => ?_⟩
  rcases h : (pollLoop maxPollingTime true obs none).outcome with snap | msg | _
  · rcases hjson : snap.resultJson with emsg | l
    · simpa [generateImage, hc, h, hjson] using
        taskDelete_not_mem (taskSet tasks taskId ⟨startTime, prompt⟩) taskId
    · simpa [generateImage, hc, h, hjson] using
        taskDelete_not_mem (taskSet tasks taskId ⟨startTime, prompt⟩) taskId
  · simpa [generateImage, hc, h] using
      taskDelete_not_mem (taskSet tasks taskId ⟨startTime, prompt⟩) taskId
  · exact absurd h hout

/-- Witness for C5: a successful run removes its job id from a map that
held it together with another in-flight job, and a failing create leaves
the map untouched. -/
theorem generateImage_tracker_cleanup_witness :
    "t1" ∉ ((generateImage (.ok "t1") [⟨.ok successSnap, 0⟩] "test" 0 9
      [("t0", ⟨0, "other"⟩)]).2.map Prod.fst) ∧
    (generateImage (.error "boom") [] "test" 0 9 [("t0", ⟨0, "other"⟩)]).2 =
      [("t0", ⟨0, "other"⟩)] := by
  constructor
  · exact (generateImage_tracker_cleanup (.ok "t1") [⟨.ok successSnap, 0⟩] "test" 0 9
      [("t0", ⟨0, "other"⟩)]).2 "t1" rfl (by decide)
  · exact (generateImage_tracker_cleanup (.error "boom") [] "test" 0 9
      [("t0", ⟨0, "other"⟩)]).1 "boom" rfl

/-! Helper lemmas about the persistence layer. -/

/-- Truncation keeps a list that is already within the bound. -/
lemma sliceLast_of_le (l : List HistoryEntry) (n : Nat) (h : l.length ≤ n) :
    sliceLast l n = l := by
  simp [sliceLast, Nat.sub_eq_zero_of_le h]

/-- Truncating a full list with one element appended drops exactly the
oldest element. -/
lemma sliceLast_snoc (h : List HistoryEntry) (x : HistoryEntry) (m : Nat)
    (hlen : h.length = m) (hm : 0 < m) :
    sliceLast (h ++ [x]) m = h.drop 1 ++ [x] := by
  have hlen2 : (h ++ [x]).length = m + 1 := by simp [hlen]
  have hsub : m + 1 - m = 1 := by omega
  rw [sliceLast, hlen2, hsub]
  exact List.drop_append_of_le_length (by omega)

/-- The duplicate filter of `importData` keeps a list whose ids are fresh
and pairwise distinct unchanged. -/
lemma dedupById_eq_self :
    ∀ (l : List HistoryEntry) (seen : List String),
      (∀ x ∈ l, x.id ∉ seen) → (l.map HistoryEntry.id).Nodup →
      dedupById seen l = l
  | [], _, _, _ => rfl
  | x :: t, seen, hseen, hnodup => by
    have hx : x.id ∉ seen := hseen x (List.mem_cons_self x t)
    rw [List.map_cons] at hnodup
    have hnd := List.nodup_cons.1 hnodup
    have ih := dedupById_eq_self t (x.id :: seen)
      (fun y hy => by
        intro hmem
        rcases List.mem_cons.1 hmem with hxy | hys
        · exact hnd.1 (hxy ▸ List.mem_map_of_mem HistoryEntry.id hy)
        · exact hseen y (List.mem_cons_of_mem x hy) hys)
      hnd.2
    simp [dedupById, hx, ih]

/-- Merging the full-object view of a preferences object over the defaults
gives back the object. -/
lemma mergeOverDefaults_toOverlay (p : Preferences) :
    mergeOverDefaults p.toOverlay = p := rfl

/-- C10: when the stored auto-save preference is disabled, `addToHistory`
reports success but performs no write at all: the store, and in particular
the persisted history collection, is returned unchanged, the new entry
existing only in the discarded in-memory list. -/
theorem addToHistory_autoSave_off (st : Store) (item : HistoryItem)
    (freshId : String) (now : Nat)
    (h : (getPreferences st).autoSave = false) :
    addToHistory st item freshId now = (true, st) := by
  simp [addToHistory, h]

/-- Witness for C10: a store whose stored preferences disable auto-save is
untouched while the call reports success. -/
theorem addToHistory_autoSave_off_witness :
    addToHistory stNoSave ⟨none, none, "p"⟩ "f" 1 = (true, stNoSave) :=
  addToHistory_autoSave_off stNoSave ⟨none, none, "p"⟩ "f" 1 (by decide)

/-- C6 counterexample: the spread `{id: ..., timestamp: ..., ...item}` lets
item fields override the fresh ones, so an item carrying a `timestamp` key
is stored with that timestamp (777), not the freshly assigned clock value
(123), refuting that `addToHistory` assigns every valid item a fresh
timestamp. -/
theorem addToHistory_fresh_fields_cex :
    getHistory (addToHistory emptyStore ⟨none, some 777, "p"⟩ "fresh" 123).2 =
      [⟨"fresh", 777, "p"⟩] ∧ (777 : Nat) ≠ 123 := by decide

/-- C6 amended: for an item that does not itself carry `id` or `timestamp`
fields (those would override), with the stored auto-save preference enabled,
`addToHistory` appends an entry with the fresh id and timestamp; on a store
already holding the configured maximum `m` of entries the stored history
afterwards has exactly `m` entries, the single oldest entry evicted and the
new entry present, and the fresh id occurs exactly once when it is new. -/
theorem addToHistory_amended (st : Store) (payload freshId : String) (now m : Nat)
    (hauto : (getPreferences st).autoSave = true)
    (hmax : effMaxHistory (getPreferences st) = m)
    (hm : 0 < m)
    (hlen : (getHistory st).length = m) :
    (addToHistory st ⟨none, none, payload⟩ freshId now).1 = true ∧
    getHistory (addToHistory st ⟨none, none, payload⟩ freshId now).2 =
      (getHistory st).drop 1 ++ [⟨freshId, now, payload⟩] ∧
    (getHistory (addToHistory st ⟨none, none, payload⟩ freshId now).2).length = m ∧
    (freshId ∉ (getHistory st).map HistoryEntry.id →
      ((getHistory (addToHistory st ⟨none, none, payload⟩ freshId now).2).map
        HistoryEntry.id).count freshId = 1) := by
  have hstep : addToHistory st ⟨none, none, payload⟩ freshId now =
      saveHistory st (getHistory st ++ [⟨freshId, now, payload⟩]) := by
    simp [addToHistory, hauto]
  have hget : getHistory (addToHistory st ⟨none, none, payload⟩ freshId now).2 =
      (getHistory st).drop 1 ++ [⟨freshId, now, payload⟩] := by
    rw [hstep]
    simp only [saveHistory, getHistory, Option.getD_some]
    rw [hmax]
    exact sliceLast_snoc (st.history.getD []) _ m hlen hm
  refine ⟨by rw [hstep]; rfl, hget, ?_, ?_⟩
  · rw [hget]
    simp
    omega
  · intro hfresh
    rw [hget]
    rw [List.map_append, List.count_append]
    have hdrop : freshId ∉ ((getHistory st).drop 1).map HistoryEntry.id := by
      intro hmem
      rw [List.map_drop] at hmem
      exact hfresh (List.mem_of_mem_drop hmem)
    rw [List.count_eq_zero.2 hdrop]
    simp

/-- Witness for C6 amended: a store at its configured maximum of two entries
ends with exactly two entries, the oldest evicted and the new entry last. -/
theorem addToHistory_amended_witness :
    getHistory (addToHistory stTwo ⟨none, none, "p"⟩ "f9" 99).2 =
      (getHistory stTwo).drop 1 ++ [⟨"f9", 99, "p"⟩] ∧
    (getHistory (addToHistory stTwo ⟨none, none, "p"⟩ "f9" 99).2).length = 2 :=
  ⟨(addToHistory_amended stTwo "p" "f9" 99 2 (by decide) (by decide) (by decide)
      (by decide)).2.1,
   (addToHistory_amended stTwo "p" "f9" 99 2 (by decide) (by decide) (by decide)
      (by decide)).2.2.1⟩

/-- C7 counterexample: a cache whose serialized size exceeds the configured
ceiling and whose only entry is 8 days old. After `cacheImage` the stored
cache still contains that entry — the purge ran but its write was
overwritten by the insert of the pre-purge snapshot — and the serialized
size still exceeds the ceiling, refuting both that entries older than 7
days are gone from the stored result and that the size is brought back
under the ceiling after the write. -/
theorem cacheImage_ceiling_cex :
    getCacheSize stOldCache > cfgSmall.maxCacheSize ∧
    now8d - (0 : Nat) > purgeMaxAge ∧
    ("u", (⟨"olddata", 0⟩ : CacheEntry)) ∈
      ((cacheImage cfgSmall stOldCache "v" "d" now8d).2.cache.getD []) ∧
    getCacheSize (cacheImage cfgSmall stOldCache "v" "d" now8d).2 >
      cfgSmall.maxCacheSize := by decide

/-- C7 amended: when the serialized cache size exceeds the configured
ceiling, `cacheImage` runs the 7-day purge and persists it before the
insert, but the insert then writes the pre-purge snapshot plus the new
entry, so the purged entries reappear in the stored cache and the size is
not guaranteed to come back under the ceiling; when the size is within the
ceiling no purge runs. -/
theorem cacheImage_amended (cfg : StorageConfig) (st : Store) (url data : String)
    (now : Nat) :
    (cacheImage cfg st url data now).2.cache =
      some (setEntry (st.cache.getD []) url ⟨data, now⟩) ∧
    (getCacheSize st > cfg.maxCacheSize →
      cacheImageMid cfg st now = cleanImageCache st now ∧
      (cleanImageCache st now).cache =
        some ((st.cache.getD []).filter fun p => ¬ now - p.2.timestamp > purgeMaxAge)) ∧
    (¬ getCacheSize st > cfg.maxCacheSize → cacheImageMid cfg st now = st) := by
  refine ⟨rfl, fun h => ⟨by simp [cacheImageMid, h], rfl⟩,
    fun h => by simp [cacheImageMid, h]⟩

/-- Witness for C7 amended: on the oversize 8-day-old cache the purge runs
before the insert, and the final stored cache is the pre-purge snapshot
plus the new entry. -/
theorem cacheImage_amended_witness :
    cacheImageMid cfgSmall stOldCache now8d = cleanImageCache stOldCache now8d ∧
    (cacheImage cfgSmall stOldCache "v" "d" now8d).2.cache =
      some (setEntry (stOldCache.cache.getD []) "v" ⟨"d", now8d⟩) :=
  ⟨((cacheImage_amended cfgSmall stOldCache "v" "d" now8d).2.1 (by decide)).1,
   (cacheImage_amended cfgSmall stOldCache "v" "d" now8d).1⟩

/-- C8 counterexample: a store with a stored theme `dark` and a
`savePreferences` argument that only specifies the sound flag. The
persisted theme is the default `auto`, not the previously stored `dark`,
refuting that keys unspecified in the argument keep their previously stored
value. -/
theorem savePreferences_discards_stored_cex :
    (getPreferences stDark).theme = "dark" ∧ ovSound.theme = none ∧
    (getPreferences (savePreferences stDark ovSound).2).theme = "auto" ∧
    ("auto" : String) ≠ "dark" := by decide

/-- C8 amended: `savePreferences` persists the argument merged over the
defaults alone — keys unspecified in the argument are reset to their default
values and previously stored values are discarded — while `getPreferences`
returns the stored object, or the defaults when nothing is stored. -/
theorem savePreferences_amended (st : Store) (p : PrefsOverlay) :
    getPreferences (savePreferences st p).2 = mergeOverDefaults p ∧
    (p.theme = none →
      (getPreferences (savePreferences st p).2).theme = defaultPreferences.theme) ∧
    (st.preferences = none → getPreferences st = defaultPreferences) ∧
    (∀ q, st.preferences = some q → getPreferences st = q) := by
  refine ⟨rfl, fun hp => ?_, fun h => by simp [getPreferences, h],
    fun q hq => by simp [getPreferences, hq]⟩
  simp [savePreferences, getPreferences, mergeOverDefaults, hp]

/-- Witness for C8 amended: saving a sound-flag-only argument over the
`dark` store persists the default theme. -/
theorem savePreferences_amended_witness :
    getPreferences (savePreferences stDark ovSound).2 = mergeOverDefaults ovSound ∧
    (getPreferences (savePreferences stDark ovSound).2).theme =
      defaultPreferences.theme :=
  ⟨(savePreferences_amended stDark ovSound).1,
   (savePreferences_amended stDark ovSound).2.1 rfl⟩

set_option maxRecDepth 4000

/-- C9 counterexample: a store holding 51 history entries (stored maximum
100). Importing its export into an empty store saves the history under the
preferences of the empty store — the defaults, maximum 50, because the
preferences are imported after the history — so one entry is lost and the
round trip does not reproduce the original history. -/
theorem importData_roundtrip_cex :
    (getHistory (importData emptyStore
        (exportAllData st51 "2026-01-01").toImportDoc).2).map HistoryEntry.id ≠
      (getHistory st51).map HistoryEntry.id := by decide

/-- C9 amended: importing the export of a store into an empty store
reproduces the original history and preferences with zero reported errors
and success, provided the original history has pairwise distinct ids and at
most 50 entries (the default maximum governing the import into the empty
store); the exported document carries version, export date, history and
preferences, and is independent of the stored credential. -/
theorem importData_export_roundtrip (st : Store) (nowIso : String)
    (hnodup : ((getHistory st).map HistoryEntry.id).Nodup)
    (hlen : (getHistory st).length ≤ 50) :
    getHistory (importData emptyStore (exportAllData st nowIso).toImportDoc).2 =
      getHistory st ∧
    getPreferences (importData emptyStore (exportAllData st nowIso).toImportDoc).2 =
      getPreferences st ∧
    (importData emptyStore (exportAllData st nowIso).toImportDoc).1.success = true ∧
    (importData emptyStore (exportAllData st nowIso).toImportDoc).1.errors = [] ∧
    (exportAllData st nowIso).version = "1.0" ∧
    (exportAllData st nowIso).exportDate = nowIso ∧
    (exportAllData st nowIso).history = getHistory st ∧
    (exportAllData st nowIso).preferences = getPreferences st ∧
    (∀ k, exportAllData { st with apiKey := k } nowIso = exportAllData st nowIso) := by
  have huniq2 : dedupById [] (getHistory st) = getHistory st :=
    dedupById_eq_self (getHistory st) [] (fun x _ hx => by cases hx) hnodup
  have hslice : sliceLast (getHistory st) 50 = getHistory st :=
    sliceLast_of_le _ _ hlen
  have h1 : (saveHistory emptyStore
        (dedupById [] (getHistory emptyStore ++ getHistory st))).2 =
      ({ history := some (getHistory st), preferences := none, apiKey := none,
         cache := none } : Store) := by
    have hemp : getHistory emptyStore ++ getHistory st = getHistory st := rfl
    rw [hemp, huniq2]
    simp only [saveHistory]
    have hpref : effMaxHistory (getPreferences emptyStore) = 50 := rfl
    rw [hpref, hslice]
    rfl
  have hfinal : (importData emptyStore (exportAllData st nowIso).toImportDoc).2 =
      ({ history := some (getHistory st), preferences := some (getPreferences st),
         apiKey := none, cache := none } : Store) := by
    simp only [importData, exportAllData, ExportDoc.toImportDoc]
    rw [h1]
    simp only [savePreferences, mergeOverDefaults_toOverlay]
  refine ⟨?_, ?_, rfl, rfl, rfl, rfl, rfl, rfl, fun k => rfl⟩
  · rw [hfinal]; rfl
  · rw [hfinal]; rfl

/-- Witness for C9 amended: a two-entry store with a non-default theme round
trips exactly. -/
theorem importData_export_roundtrip_witness :
    getHistory (importData emptyStore (exportAllData stRound "2026-01-01").toImportDoc).2 =
      getHistory stRound ∧
    getPreferences (importData emptyStore
        (exportAllData stRound "2026-01-01").toImportDoc).2 = getPreferences stRound :=
  ⟨(importData_export_roundtrip stRound "2026-01-01" (by decide) (by decide)).1,
   (importData_export_roundtrip stRound "2026-01-01" (by decide) (by decide)).2.1⟩

end ChildDemo
